import Mathlib

/-!
Verification of `MdePkg/Library/BasePeCoffLib2/PeCoffDebug.c`
(`PeCoffGetPdbPath`): a shallow embedding of the function over a byte-buffer
model, with 32-bit arithmetic made explicit (`% 2^32` where the C code wraps,
checked primitives where the C code calls `BaseOverflowAddU32` /
`BaseOverflowSubU32`).

The image file buffer is modelled as a total function from byte index to byte
value; reads mask to 8 bits, so every 32-bit read is `< 2^32` by construction.
Pointers into the buffer are modelled as byte offsets from the buffer start.
-/

/-- A raw byte buffer: byte index to byte value. Reads mask to 8 bits. -/
def Buffer : Type := Nat → Nat

/-- Truncation to 32 bits, the behaviour of C `UINT32` arithmetic. -/
def wrap32 (n : Nat) : Nat := n % 4294967296

/-- Wrapping 32-bit subtraction, the behaviour of C `UINT32` subtraction. -/
def wsub32 (a c : Nat) : Nat := wrap32 (wrap32 a + 4294967296 - wrap32 c)

/-- Read one byte (C `CHAR8` / `UINT8` access, masked to 8 bits). -/
def readU8 (b : Buffer) (i : Nat) : Nat := b i % 256

/-- Read a little-endian 32-bit word (C `UINT32` access). -/
def readU32 (b : Buffer) (i : Nat) : Nat :=
  readU8 b i + 256 * readU8 b (i + 1) + 65536 * readU8 b (i + 2) +
    16777216 * readU8 b (i + 3)

/-- `BaseOverflowAddU32` from `BaseOverflowLib`: returns the overflow flag and
the wrapped 32-bit sum. -/
def BaseOverflowAddU32 (a c : Nat) : Bool × Nat :=
  (decide (4294967296 ≤ a + c), wrap32 (a + c))

/-- `BaseOverflowSubU32` from `BaseOverflowLib`: returns the underflow flag and
the wrapped 32-bit difference. -/
def BaseOverflowSubU32 (a c : Nat) : Bool × Nat :=
  (decide (a < c), wsub32 a c)

/-- The two PCD configuration toggles consumed by `PeCoffGetPdbPath`:
`PcdImageLoaderDebugSupport` and `PcdImageLoaderProhibitTe`. -/
structure Config where
  imageLoaderDebugSupport : Bool
  imageLoaderProhibitTe : Bool

/-- `PeCoffLoaderTypeTe` from the `PE_COFF_LOADER_IMAGE_CONTEXT` image type
enumeration of `PeCoffLib2.h`. -/
def PeCoffLoaderTypeTe : Nat := 0

/-- `PeCoffLoaderTypePe32`. -/
def PeCoffLoaderTypePe32 : Nat := 1

/-- `PeCoffLoaderTypePe32Plus`. -/
def PeCoffLoaderTypePe32Plus : Nat := 2

/-- The fields of `PE_COFF_LOADER_IMAGE_CONTEXT` read by `PeCoffGetPdbPath`.
The file buffer itself is passed separately; `fileSize` is the length of the
caller's file buffer as recorded in the context. -/
structure ImageContext where
  imageType : Nat
  exeHdrOffset : Nat
  sizeOfImage : Nat
  fileSize : Nat
  sectionsOffset : Nat
  numberOfSections : Nat
  teStrippedOffset : Nat

/-- The `RETURN_STATUS` values `PeCoffGetPdbPath` can produce. -/
inductive RETURN_STATUS where
  | success
  | notFound
  | unsupported
deriving DecidableEq

/-- `sizeof (EFI_IMAGE_DEBUG_DIRECTORY_ENTRY)`: 28 bytes
(Characteristics, TimeDateStamp, two UINT16 versions, Type, SizeOfData,
RVA, FileOffset). -/
def sizeof_EFI_IMAGE_DEBUG_DIRECTORY_ENTRY : Nat := 28

/-- `EFI_IMAGE_DIRECTORY_ENTRY_DEBUG`, the index of the debug directory in the
data-directory array. -/
def EFI_IMAGE_DIRECTORY_ENTRY_DEBUG : Nat := 6

/-- `EFI_IMAGE_DEBUG_TYPE_CODEVIEW`, the type tag of a CodeView entry. -/
def EFI_IMAGE_DEBUG_TYPE_CODEVIEW : Nat := 2

/-- `CODEVIEW_SIGNATURE_NB10` = SIGNATURE_32 of the bytes N, B, 1, 0. -/
def CODEVIEW_SIGNATURE_NB10 : Nat := 0x3031424E

/-- `CODEVIEW_SIGNATURE_RSDS` = SIGNATURE_32 of the bytes R, S, D, S. -/
def CODEVIEW_SIGNATURE_RSDS : Nat := 0x53445352

/-- `CODEVIEW_SIGNATURE_MTOC` = SIGNATURE_32 of the bytes M, T, O, C. -/
def CODEVIEW_SIGNATURE_MTOC : Nat := 0x434F544D

/-- Modelled from the spec: the NB10 CodeView record's fixed header
(`sizeof (EFI_IMAGE_DEBUG_CODEVIEW_NB10_ENTRY)`, a signature plus three
32-bit words). -/
def sizeof_NB10_ENTRY : Nat := 16

/-- Modelled from the spec: the RSDS CodeView record's fixed header
(`sizeof (EFI_IMAGE_DEBUG_CODEVIEW_RSDS_ENTRY)`, a signature plus a GUID
plus an age word). -/
def sizeof_RSDS_ENTRY : Nat := 24

/-- Modelled from the spec: the MTOC CodeView record's fixed header
(`sizeof (EFI_IMAGE_DEBUG_CODEVIEW_MTOC_ENTRY)`, a signature plus a GUID). -/
def sizeof_MTOC_ENTRY : Nat := 20

/-- `Sections[i].VirtualSize` (offset 8 in the 40-byte
`EFI_IMAGE_SECTION_HEADER`, sections at `Context->SectionsOffset`). -/
def sectionVirtualSize (b : Buffer) (ctx : ImageContext) (i : Nat) : Nat :=
  readU32 b (ctx.sectionsOffset + 40 * i + 8)

/-- `Sections[i].VirtualAddress` (offset 12 in the section header). -/
def sectionVirtualAddress (b : Buffer) (ctx : ImageContext) (i : Nat) : Nat :=
  readU32 b (ctx.sectionsOffset + 40 * i + 12)

/-- `Sections[i].SizeOfRawData` (offset 16 in the section header). -/
def sectionSizeOfRawData (b : Buffer) (ctx : ImageContext) (i : Nat) : Nat :=
  readU32 b (ctx.sectionsOffset + 40 * i + 16)

/-- `Sections[i].PointerToRawData` (offset 20 in the section header). -/
def sectionPointerToRawData (b : Buffer) (ctx : ImageContext) (i : Nat) : Nat :=
  readU32 b (ctx.sectionsOffset + 40 * i + 20)

/-- `DebugEntries[i].Type` (offset 12 in the 28-byte
`EFI_IMAGE_DEBUG_DIRECTORY_ENTRY`, entries at `DebugDirFileOffset`). -/
def debugEntryType (b : Buffer) (entriesOff i : Nat) : Nat :=
  readU32 b (entriesOff + 28 * i + 12)

/-- `DebugEntries[i].SizeOfData` (offset 16 in the debug directory entry). -/
def debugEntrySizeOfData (b : Buffer) (entriesOff i : Nat) : Nat :=
  readU32 b (entriesOff + 28 * i + 16)

/-- `DebugEntries[i].FileOffset` (offset 24 in the debug directory entry). -/
def debugEntryFileOffsetField (b : Buffer) (entriesOff i : Nat) : Nat :=
  readU32 b (entriesOff + 28 * i + 24)

/-- First-match linear scan, the shape of both `for` loops of
`PeCoffGetPdbPath` (lines 149-155 and 206-210): starting at index `i` with
`rem` indices remaining, return the first index satisfying `p`, or the
one-past-the-end index when none does. -/
def scanFirst (p : Nat → Bool) : Nat → Nat → Nat
  | 0, i => i
  | Nat.succ rem, i => if p i then i else scanFirst p rem (i + 1)

/-- Lines 71-112: locate the debug directory (virtual address, size) for the
image's container format. Header field offsets follow the industry-standard
TE and PE/COFF layouts declared in `IndustryStandard/PeImage2.h`: the TE
header's `DataDirectory[1]` lies at offset 32; the PE32 optional header's
`NumberOfRvaAndSizes` lies at offset 116 from the NT signature with the
data directory at 120; for PE32+ they lie at 132 and 136; the debug entry is
data directory index 6, each entry 8 bytes (VirtualAddress, Size). -/
def locateDebugDir (cfg : Config) (ctx : ImageContext) (b : Buffer) :
    Except RETURN_STATUS (Nat × Nat) :=
  if ctx.imageType = PeCoffLoaderTypeTe then
    if cfg.imageLoaderProhibitTe then .error .unsupported
    else .ok (readU32 b 32, readU32 b 36)
  else if ctx.imageType = PeCoffLoaderTypePe32 then
    if readU32 b (ctx.exeHdrOffset + 116) ≤ EFI_IMAGE_DIRECTORY_ENTRY_DEBUG then
      .error .notFound
    else .ok (readU32 b (ctx.exeHdrOffset + 168), readU32 b (ctx.exeHdrOffset + 172))
  else if ctx.imageType = PeCoffLoaderTypePe32Plus then
    if readU32 b (ctx.exeHdrOffset + 132) ≤ EFI_IMAGE_DIRECTORY_ENTRY_DEBUG then
      .error .notFound
    else .ok (readU32 b (ctx.exeHdrOffset + 184), readU32 b (ctx.exeHdrOffset + 188))
  else .error .unsupported

/-- Lines 114-140: the debug directory must be non-empty, a whole number of
entries, and in bounds of the image (overflow-checked). On success returns
`DebugDirTop`. -/
def validateDebugDirSize (ctx : ImageContext) (dirVA dirSize : Nat) :
    Except RETURN_STATUS Nat :=
  if dirSize = 0 then .error .notFound
  else if dirSize % sizeof_EFI_IMAGE_DEBUG_DIRECTORY_ENTRY ≠ 0 then
    .error .unsupported
  else
    let add := BaseOverflowAddU32 dirVA dirSize
    if add.1 = true ∨ ctx.sizeOfImage < add.2 then .error .unsupported
    else .ok add.2

/-- The loop condition of lines 150-151:
`DebugDir->VirtualAddress >= Sections[i].VirtualAddress` and
`DebugDirTop <= Sections[i].VirtualAddress + Sections[i].VirtualSize`,
the sum being C `UINT32` addition, hence taken mod `2^32`. -/
def debugDirInSection (b : Buffer) (ctx : ImageContext) (dirVA dirTop i : Nat) :
    Bool :=
  decide (sectionVirtualAddress b ctx i ≤ dirVA) &&
    decide (dirTop ≤ wrap32 (sectionVirtualAddress b ctx i + sectionVirtualSize b ctx i))

/-- Lines 149-155: scan the section table for the first section containing the
debug directory's virtual range; `ctx.numberOfSections` when none does. -/
def findDebugSectionIndex (ctx : ImageContext) (b : Buffer) (dirVA dirTop : Nat) :
    Nat :=
  scanFirst (debugDirInSection b ctx dirVA dirTop) ctx.numberOfSections 0

/-- Lines 142-202: map the debug directory's virtual range to a raw file
offset via the containing section, check its containment in the section's raw
data, apply the TE stripped-offset compensation when TE images are not
prohibited by configuration, and check 4-byte alignment. -/
def mapDebugDirToFileOffset (cfg : Config) (ctx : ImageContext) (b : Buffer)
    (dirVA dirSize dirTop : Nat) : Except RETURN_STATUS Nat :=
  let sectionIndex := findDebugSectionIndex ctx b dirVA dirTop
  if sectionIndex = ctx.numberOfSections then .error .unsupported
  else
    let debugDirSectionOffset := wsub32 dirVA (sectionVirtualAddress b ctx sectionIndex)
    let debugDirSectionRawTop := wrap32 (debugDirSectionOffset + dirSize)
    if sectionSizeOfRawData b ctx sectionIndex < debugDirSectionRawTop then
      .error .unsupported
    else
      let d0 := wrap32 (sectionPointerToRawData b ctx sectionIndex + debugDirSectionOffset)
      let debugDirFileOffset :=
        if cfg.imageLoaderProhibitTe then d0 else wsub32 d0 ctx.teStrippedOffset
      if debugDirFileOffset % 4 ≠ 0 then .error .unsupported
      else .ok debugDirFileOffset

/-- Lines 204-210: scan the debug directory entries for the first one with
type `EFI_IMAGE_DEBUG_TYPE_CODEVIEW`; `n` (the entry count) when none has. -/
def findCodeViewIndex (b : Buffer) (entriesOff n : Nat) : Nat :=
  scanFirst (fun i => decide (debugEntryType b entriesOff i = EFI_IMAGE_DEBUG_TYPE_CODEVIEW)) n 0

/-- Lines 267-298: the `switch` on the CodeView signature, selecting the fixed
header size (`PdbOffset`); `none` represents the `default` branch. -/
def codeViewHeaderSize (sig : Nat) : Option Nat :=
  if sig = CODEVIEW_SIGNATURE_NB10 then some sizeof_NB10_ENTRY
  else if sig = CODEVIEW_SIGNATURE_RSDS then some sizeof_RSDS_ENTRY
  else if sig = CODEVIEW_SIGNATURE_MTOC then some sizeof_MTOC_ENTRY
  else none

/-- Lines 245-325: with the (already TE-compensated) CodeView entry file
offset and declared data size, check bounds and alignment, read the signature,
derive the PDB name view and check its termination. -/
def extractPdbAtOffset (ctx : ImageContext) (b : Buffer)
    (debugEntryFileOffset sizeOfData p0 s0 : Nat) : RETURN_STATUS × Nat × Nat :=
  let add := BaseOverflowAddU32 debugEntryFileOffset sizeOfData
  if add.1 = true ∨ ctx.fileSize < add.2 ∨ debugEntryFileOffset % 4 ≠ 0 then
    (.unsupported, p0, s0)
  else
    match codeViewHeaderSize (readU32 b debugEntryFileOffset) with
    | none => (.unsupported, p0, s0)
    | some pdbOffset =>
      let sub := BaseOverflowSubU32 sizeOfData pdbOffset
      if sub.1 = true ∨ sub.2 = 0 then (.unsupported, p0, s0)
      else
        let pdbName := debugEntryFileOffset + pdbOffset
        if readU8 b (pdbName + (sub.2 - 1)) ≠ 0 then (.unsupported, p0, s0)
        else (.success, pdbName, sub.2)

/-- Lines 219-325: the CodeView extractor for the matched entry: signature
space check (line 224), TE stripped-offset compensation of the entry file
offset with checked subtraction (lines 229-243), then `extractPdbAtOffset`. -/
def extractPdbFromEntry (cfg : Config) (ctx : ImageContext) (b : Buffer)
    (entriesOff debugIndex p0 s0 : Nat) : RETURN_STATUS × Nat × Nat :=
  if debugEntrySizeOfData b entriesOff debugIndex < 4 then (.unsupported, p0, s0)
  else if cfg.imageLoaderProhibitTe then
    extractPdbAtOffset ctx b (debugEntryFileOffsetField b entriesOff debugIndex)
      (debugEntrySizeOfData b entriesOff debugIndex) p0 s0
  else if (BaseOverflowSubU32 (debugEntryFileOffsetField b entriesOff debugIndex)
      ctx.teStrippedOffset).1 then (.unsupported, p0, s0)
  else
    extractPdbAtOffset ctx b
      (BaseOverflowSubU32 (debugEntryFileOffsetField b entriesOff debugIndex)
        ctx.teStrippedOffset).2
      (debugEntrySizeOfData b entriesOff debugIndex) p0 s0

/-- Lines 114-325: everything after the directory locator. -/
def getPdbPathFromDir (cfg : Config) (ctx : ImageContext) (b : Buffer)
    (dirVA dirSize p0 s0 : Nat) : RETURN_STATUS × Nat × Nat :=
  match validateDebugDirSize ctx dirVA dirSize with
  | .error st => (st, p0, s0)
  | .ok dirTop =>
    match mapDebugDirToFileOffset cfg ctx b dirVA dirSize dirTop with
    | .error st => (st, p0, s0)
    | .ok debugDirFileOffset =>
      let numDebugEntries := dirSize / sizeof_EFI_IMAGE_DEBUG_DIRECTORY_ENTRY
      let debugIndex := findCodeViewIndex b debugDirFileOffset numDebugEntries
      if debugIndex = numDebugEntries then (.notFound, p0, s0)
      else extractPdbFromEntry cfg ctx b debugDirFileOffset debugIndex p0 s0

/-- `PeCoffGetPdbPath` (lines 27-326). The caller's output locations
`*PdbPath` and `*PdbPathSize` are modelled by threading their prior contents
`p0`, `s0`; the returned pair holds their contents after the call (written
only at lines 322-323, on the success path). The returned path pointer is the
byte offset of the first name byte from the start of the file buffer. -/
def PeCoffGetPdbPath (cfg : Config) (ctx : ImageContext) (b : Buffer)
    (p0 s0 : Nat) : RETURN_STATUS × Nat × Nat :=
  if cfg.imageLoaderDebugSupport = false then (.notFound, p0, s0)
  else
    match locateDebugDir cfg ctx b with
    | .error st => (st, p0, s0)
    | .ok dir => getPdbPathFromDir cfg ctx b dir.1 dir.2 p0 s0

/-- The memory locations `PeCoffGetPdbPath` can reach: the image context, the
file buffer, and the caller's two output locations. -/
structure MemState where
  ctx : ImageContext
  buffer : Buffer
  outPath : Nat
  outSize : Nat

/-- `PeCoffGetPdbPath` as a transformer of the reachable memory: the source's
only stores are `*PdbPath` / `*PdbPathSize` (lines 322-323), so only the two
output fields are updated. -/
def runPeCoffGetPdbPath (cfg : Config) (st : MemState) :
    RETURN_STATUS × MemState :=
  let r := PeCoffGetPdbPath cfg st.ctx st.buffer st.outPath st.outSize
  (r.1, { st with outPath := r.2.1, outSize := r.2.2 })

/-- Modelled from the spec: the section-containment condition as the spec
states it, with exact (non-wrapping) arithmetic:
`section.virtualAddress <= dir.virtualAddress` and
`dir.virtualAddress + dir.size <= section.virtualAddress + section.virtualSize`. -/
def debugDirInSectionSpec (b : Buffer) (ctx : ImageContext)
    (dirVA dirSize i : Nat) : Prop :=
  sectionVirtualAddress b ctx i ≤ dirVA ∧
    dirVA + dirSize ≤ sectionVirtualAddress b ctx i + sectionVirtualSize b ctx i

/-! ### Concrete images used as witnesses and counterexamples -/

/-- Configuration with debug support on and TE images allowed. -/
def exCfg : Config := ⟨true, false⟩

/-- A well-formed 144-byte TE image: debug directory (VA 80, size 28) backed
by one section (VA 80, virtual size 256, raw size 256, raw pointer 80); one
CodeView-typed debug entry whose data (offset 112, size 32) is an RSDS record
with the 8-byte name bytes of `app.pdb` plus terminator at offset 136. -/
def exBuf : Buffer := fun i =>
  if i = 32 then 80 else if i = 36 then 28
  else if i = 49 then 1 else if i = 52 then 80
  else if i = 57 then 1 else if i = 60 then 80
  else if i = 92 then 2 else if i = 96 then 32 else if i = 104 then 112
  else if i = 112 then 82 else if i = 113 then 83
  else if i = 114 then 68 else if i = 115 then 83
  else if i = 136 then 97 else if i = 137 then 112 else if i = 138 then 112
  else if i = 139 then 46 else if i = 140 then 112 else if i = 141 then 100
  else if i = 142 then 98 else 0

/-- Context for `exBuf`: TE image, 512-byte image extent, 144-byte file,
sections at offset 40, one section, no stripped bytes. -/
def exCtx : ImageContext := ⟨PeCoffLoaderTypeTe, 0, 512, 144, 40, 1, 0⟩

/-- A TE image whose debug directory (VA `0x80000000`, size 28) is exactly
contained in section 0 (VA 16, virtual size `0xFFFFFFF0`) under exact
arithmetic, while the 32-bit sum `16 + 0xFFFFFFF0` wraps to 0. -/
def cexBuf : Buffer := fun i =>
  if i = 35 then 128 else if i = 36 then 28
  else if i = 48 then 240 else if i = 49 then 255
  else if i = 50 then 255 else if i = 51 then 255
  else if i = 52 then 16 else 0

/-- Context for `cexBuf`: TE image, maximal image extent, one section. -/
def cexCtx : ImageContext := ⟨PeCoffLoaderTypeTe, 0, 4294967295, 1000, 40, 1, 0⟩

/-- A TE image whose debug directory virtual address is `0xFFFFFFF0` with
size `0x20`, so the 32-bit sum overflows. -/
def ovBuf : Buffer := fun i =>
  if i = 32 then 240 else if i = 33 then 255
  else if i = 34 then 255 else if i = 35 then 255
  else if i = 36 then 32 else 0

/-- Context for `ovBuf`. -/
def ovCtx : ImageContext := ⟨PeCoffLoaderTypeTe, 0, 512, 144, 40, 0, 0⟩

/-- The all-zero buffer: as a TE image its debug directory has size 0. -/
def zeroBuf : Buffer := fun _ => 0

/-- Context for `zeroBuf` as a TE image. -/
def zeroCtx : ImageContext := ⟨PeCoffLoaderTypeTe, 0, 512, 144, 40, 0, 0⟩

/-- A PE32 context with no stripped bytes, for the TE-compensation
equivalence witness. -/
def pe32Ctx : ImageContext := ⟨PeCoffLoaderTypePe32, 0, 512, 144, 40, 1, 0⟩

/-- A buffer holding one debug entry at offset 0 with `SizeOfData` 4 and
`FileOffset` 0, used with a context whose stripped count is 100 to exercise
the entry-offset compensation underflow. -/
def underBuf : Buffer := fun i => if i = 16 then 4 else 0

/-- Context with `teStrippedOffset = 100` for the underflow witness. -/
def underCtx : ImageContext := ⟨PeCoffLoaderTypeTe, 0, 512, 144, 40, 1, 100⟩

/-- The CodeView entry file offset after the TE stripped-offset compensation
of lines 229-243: the raw `FileOffset` field when TE images are prohibited,
otherwise the field minus `TeStrippedOffset`. -/
def compensatedEntryOffset (cfg : Config) (ctx : ImageContext) (b : Buffer)
    (entriesOff idx : Nat) : Nat :=
  if cfg.imageLoaderProhibitTe then debugEntryFileOffsetField b entriesOff idx
  else wsub32 (debugEntryFileOffsetField b entriesOff idx) ctx.teStrippedOffset

/-- Restores prior output contents on non-success: the shape of
`PeCoffGetPdbPath`'s result as a function of the outputs' prior contents. -/
def restoreOut (p0 s0 : Nat) (r : RETURN_STATUS × Nat × Nat) :
    RETURN_STATUS × Nat × Nat :=
  if r.1 = RETURN_STATUS.success then r else (r.1, p0, s0)

/-! ### Theorems -/

/-! ### Arithmetic facts about the byte and 32-bit model -/

theorem readU8_lt (b : Buffer) (i : Nat) : readU8 b i < 256 :=
  Nat.mod_lt _ (by omega)

theorem readU32_lt (b : Buffer) (i : Nat) : readU32 b i < 4294967296 := by
  have h0 := readU8_lt b i
  have h1 := readU8_lt b (i + 1)
  have h2 := readU8_lt b (i + 2)
  have h3 := readU8_lt b (i + 3)
  unfold readU32
  omega

theorem wrap32_lt (n : Nat) : wrap32 n < 4294967296 :=
  Nat.mod_lt _ (by omega)

theorem wrap32_eq_of_lt {n : Nat} (h : n < 4294967296) : wrap32 n = n :=
  Nat.mod_eq_of_lt h

theorem wsub32_eq {a c : Nat} (hc : c ≤ a) (ha : a < 4294967296) :
    wsub32 a c = a - c := by
  unfold wsub32 wrap32
  omega

theorem wsub32_zero {a : Nat} (ha : a < 4294967296) : wsub32 a 0 = a := by
  unfold wsub32 wrap32
  omega

/-! ### Characterization of the first-match scan -/

theorem scanFirst_ge (p : Nat → Bool) : ∀ rem i, i ≤ scanFirst p rem i := by
  intro rem
  induction rem with
  | zero => intro i; simp [scanFirst]
  | succ n ih =>
    intro i
    simp only [scanFirst]
    split
    · exact Nat.le_refl i
    · have := ih (i + 1); omega

theorem scanFirst_le (p : Nat → Bool) : ∀ rem i, scanFirst p rem i ≤ i + rem := by
  intro rem
  induction rem with
  | zero => intro i; simp [scanFirst]
  | succ n ih =>
    intro i
    simp only [scanFirst]
    split
    · omega
    · have := ih (i + 1); omega

theorem scanFirst_min (p : Nat → Bool) :
    ∀ rem i j, i ≤ j → j < scanFirst p rem i → p j = false := by
  intro rem
  induction rem with
  | zero =>
    intro i j h1 h2
    simp only [scanFirst] at h2
    omega
  | succ n ih =>
    intro i j h1 h2
    simp only [scanFirst] at h2
    by_cases hp : p i = true
    · rw [if_pos hp] at h2; omega
    · rw [if_neg hp] at h2
      rcases Nat.eq_or_lt_of_le h1 with he | hl
      · subst he
        simpa using hp
      · exact ih (i + 1) j hl h2

theorem scanFirst_hit (p : Nat → Bool) :
    ∀ rem i, scanFirst p rem i < i + rem → p (scanFirst p rem i) = true := by
  intro rem
  induction rem with
  | zero => intro i h; simp [scanFirst] at h
  | succ n ih =>
    intro i h
    simp only [scanFirst] at h ⊢
    by_cases hp : p i = true
    · simp [hp]
    · simp [hp] at h ⊢
      exact ih (i + 1) (by omega)

/-! ### Unfolding helpers -/

theorem main_locate_ok (cfg : Config) (ctx : ImageContext) (b : Buffer)
    (p0 s0 va sz : Nat)
    (hen : cfg.imageLoaderDebugSupport = true)
    (hloc : locateDebugDir cfg ctx b = .ok (va, sz)) :
    PeCoffGetPdbPath cfg ctx b p0 s0 = getPdbPathFromDir cfg ctx b va sz p0 s0 := by
  unfold PeCoffGetPdbPath
  rw [hloc, hen]
  simp

/-! ### Claim theorems -/

/-- Claim C2: whenever `PcdImageLoaderDebugSupport` is false, the operation
returns `RETURN_NOT_FOUND` and leaves the outputs unchanged, regardless of the
buffer contents, the image type, or any other context field. -/
theorem pdbPath_disabled_notFound (cfg : Config) (ctx : ImageContext)
    (b : Buffer) (p0 s0 : Nat) (h : cfg.imageLoaderDebugSupport = false) :
    PeCoffGetPdbPath cfg ctx b p0 s0 = (.notFound, p0, s0) := by
  unfold PeCoffGetPdbPath
  rw [h]
  simp

/-- Witness for C2 at a concrete configuration and image. -/
theorem pdbPath_disabled_notFound_inst :
    PeCoffGetPdbPath ⟨false, false⟩ exCtx exBuf 3 4 = (.notFound, 3, 4) :=
  pdbPath_disabled_notFound ⟨false, false⟩ exCtx exBuf 3 4 rfl

/-- Claim C7: once the debug directory has been located, a directory size of
exactly zero yields `RETURN_NOT_FOUND` (absence), while a nonzero size that is
not a multiple of `sizeof (EFI_IMAGE_DEBUG_DIRECTORY_ENTRY)` yields
`RETURN_UNSUPPORTED` (malformed). -/
theorem pdbPath_dir_size_classification (cfg : Config) (ctx : ImageContext)
    (b : Buffer) (p0 s0 va sz : Nat)
    (hen : cfg.imageLoaderDebugSupport = true)
    (hloc : locateDebugDir cfg ctx b = .ok (va, sz)) :
    (sz = 0 → PeCoffGetPdbPath cfg ctx b p0 s0 = (.notFound, p0, s0)) ∧
    (sz ≠ 0 → sz % sizeof_EFI_IMAGE_DEBUG_DIRECTORY_ENTRY ≠ 0 →
      PeCoffGetPdbPath cfg ctx b p0 s0 = (.unsupported, p0, s0)) := by
  rw [main_locate_ok cfg ctx b p0 s0 va sz hen hloc]
  constructor
  · intro h0
    unfold getPdbPathFromDir validateDebugDirSize
    simp [h0]
  · intro h0 hmod
    unfold getPdbPathFromDir validateDebugDirSize
    simp [h0, hmod]

/-- Witness for C7: the all-zero TE image has a debug directory of size 0 and
the call reports absence, leaving the outputs untouched. -/
theorem pdbPath_dir_size_classification_inst :
    PeCoffGetPdbPath exCfg zeroCtx zeroBuf 5 6 = (.notFound, 5, 6) :=
  (pdbPath_dir_size_classification exCfg zeroCtx zeroBuf 5 6 0 0 rfl rfl).1 rfl

/-- Claim C4: once the debug directory has been located and has nonzero size,
if `VirtualAddress + Size` overflows 32 bits, or its (exact) sum exceeds
`SizeOfImage`, the operation returns `RETURN_UNSUPPORTED`. -/
theorem pdbPath_dir_overflow_unsupported (cfg : Config) (ctx : ImageContext)
    (b : Buffer) (p0 s0 va sz : Nat)
    (hen : cfg.imageLoaderDebugSupport = true)
    (hloc : locateDebugDir cfg ctx b = .ok (va, sz))
    (hsz : sz ≠ 0)
    (hover : 4294967296 ≤ va + sz ∨ ctx.sizeOfImage < va + sz) :
    PeCoffGetPdbPath cfg ctx b p0 s0 = (.unsupported, p0, s0) := by
  rw [main_locate_ok cfg ctx b p0 s0 va sz hen hloc]
  by_cases hmod : sz % sizeof_EFI_IMAGE_DEBUG_DIRECTORY_ENTRY = 0
  · have hcond : 4294967296 ≤ va + sz ∨ ctx.sizeOfImage < wrap32 (va + sz) := by
      rcases hover with h | h
      · exact Or.inl h
      · by_cases hov : 4294967296 ≤ va + sz
        · exact Or.inl hov
        · right
          rw [wrap32_eq_of_lt (by omega)]
          exact h
    unfold getPdbPathFromDir validateDebugDirSize BaseOverflowAddU32
    simp [hsz, hmod, hcond]
  · unfold getPdbPathFromDir validateDebugDirSize
    simp [hsz, hmod]

/-- Witness for C4: a debug directory at `0xFFFFFFF0` of size `0x20`
overflows 32-bit arithmetic and the call reports `RETURN_UNSUPPORTED`. -/
theorem pdbPath_dir_overflow_unsupported_inst :
    PeCoffGetPdbPath exCfg ovCtx ovBuf 0 0 = (.unsupported, 0, 0) :=
  pdbPath_dir_overflow_unsupported exCfg ovCtx ovBuf 0 0 4294967280 32 rfl rfl
    (by decide) (Or.inl (by decide))

theorem main_stages_ok (cfg : Config) (ctx : ImageContext) (b : Buffer)
    (p0 s0 va sz top off : Nat)
    (hen : cfg.imageLoaderDebugSupport = true)
    (hloc : locateDebugDir cfg ctx b = .ok (va, sz))
    (hval : validateDebugDirSize ctx va sz = .ok top)
    (hmap : mapDebugDirToFileOffset cfg ctx b va sz top = .ok off) :
    PeCoffGetPdbPath cfg ctx b p0 s0 =
      (if findCodeViewIndex b off (sz / sizeof_EFI_IMAGE_DEBUG_DIRECTORY_ENTRY) =
          sz / sizeof_EFI_IMAGE_DEBUG_DIRECTORY_ENTRY
       then (.notFound, p0, s0)
       else extractPdbFromEntry cfg ctx b off
         (findCodeViewIndex b off (sz / sizeof_EFI_IMAGE_DEBUG_DIRECTORY_ENTRY)) p0 s0) := by
  rw [main_locate_ok cfg ctx b p0 s0 va sz hen hloc]
  unfold getPdbPathFromDir
  simp only [hval, hmap]

/-- Claim C3 (amended): once the debug directory has been located and
validated, the section scan selects the first section index satisfying
`section.virtualAddress <= dir.virtualAddress` and
`dirTop <= (section.virtualAddress + section.virtualSize) mod 2^32`
(the sum is 32-bit wrapping, which agrees with the spec's exact inequality
whenever it does not wrap), and when no section satisfies that condition the
operation returns `RETURN_UNSUPPORTED`. -/
theorem pdbPath_section_scan (cfg : Config) (ctx : ImageContext) (b : Buffer)
    (p0 s0 va sz top : Nat)
    (hen : cfg.imageLoaderDebugSupport = true)
    (hloc : locateDebugDir cfg ctx b = .ok (va, sz))
    (hval : validateDebugDirSize ctx va sz = .ok top) :
    findDebugSectionIndex ctx b va top ≤ ctx.numberOfSections ∧
    (∀ j, j < findDebugSectionIndex ctx b va top →
      debugDirInSection b ctx va top j = false) ∧
    (findDebugSectionIndex ctx b va top < ctx.numberOfSections →
      debugDirInSection b ctx va top (findDebugSectionIndex ctx b va top) = true) ∧
    (findDebugSectionIndex ctx b va top = ctx.numberOfSections →
      PeCoffGetPdbPath cfg ctx b p0 s0 = (.unsupported, p0, s0)) := by
  refine ⟨?_, ?_, ?_, ?_⟩
  · have h := scanFirst_le (debugDirInSection b ctx va top) ctx.numberOfSections 0
    unfold findDebugSectionIndex
    omega
  · intro j hj
    exact scanFirst_min _ ctx.numberOfSections 0 j (Nat.zero_le j) hj
  · intro h
    have hle := scanFirst_hit (debugDirInSection b ctx va top) ctx.numberOfSections 0
    unfold findDebugSectionIndex at h ⊢
    exact hle (by omega)
  · intro h
    rw [main_locate_ok cfg ctx b p0 s0 va sz hen hloc]
    unfold getPdbPathFromDir
    simp only [hval]
    unfold mapDebugDirToFileOffset
    simp [h]

/-- Counterexample to C3 as stated: for `cexBuf`/`cexCtx` the debug directory
(VA `0x80000000`, size 28, validated top `0x8000001C`) is exactly contained in
section 0 under the spec's non-wrapping inequalities, yet the code's wrapping
comparison rejects every section and the operation returns
`RETURN_UNSUPPORTED` instead of selecting section 0. -/
theorem pdbPath_section_scan_cex :
    locateDebugDir exCfg cexCtx cexBuf = .ok (2147483648, 28) ∧
    validateDebugDirSize cexCtx 2147483648 28 = .ok 2147483676 ∧
    debugDirInSectionSpec cexBuf cexCtx 2147483648 28 0 ∧
    findDebugSectionIndex cexCtx cexBuf 2147483648 2147483676 =
      cexCtx.numberOfSections ∧
    PeCoffGetPdbPath exCfg cexCtx cexBuf 0 0 = (.unsupported, 0, 0) := by
  refine ⟨rfl, rfl, ?_, by decide, by decide⟩
  unfold debugDirInSectionSpec
  exact ⟨by decide, by decide⟩

/-- Witness for C3 (amended) at the well-formed TE image, where section 0 is
selected. -/
theorem pdbPath_section_scan_inst :
    findDebugSectionIndex exCtx exBuf 80 108 ≤ exCtx.numberOfSections ∧
    (∀ j, j < findDebugSectionIndex exCtx exBuf 80 108 →
      debugDirInSection exBuf exCtx 80 108 j = false) ∧
    (findDebugSectionIndex exCtx exBuf 80 108 < exCtx.numberOfSections →
      debugDirInSection exBuf exCtx 80 108 (findDebugSectionIndex exCtx exBuf 80 108) = true) ∧
    (findDebugSectionIndex exCtx exBuf 80 108 = exCtx.numberOfSections →
      PeCoffGetPdbPath exCfg exCtx exBuf 7 8 = (.unsupported, 7, 8)) :=
  pdbPath_section_scan exCfg exCtx exBuf 7 8 80 28 108 rfl rfl rfl

/-- Claim C8: once the directory is located, validated and mapped to the file
offset `off`, the entry scan walks the full entry count `sz / 28` and picks
the first CodeView-typed entry (entries before it are not CodeView-typed), and
when no entry is CodeView-typed the operation returns `RETURN_NOT_FOUND`. -/
theorem pdbPath_codeview_scan (cfg : Config) (ctx : ImageContext) (b : Buffer)
    (p0 s0 va sz top off : Nat)
    (hen : cfg.imageLoaderDebugSupport = true)
    (hloc : locateDebugDir cfg ctx b = .ok (va, sz))
    (hval : validateDebugDirSize ctx va sz = .ok top)
    (hmap : mapDebugDirToFileOffset cfg ctx b va sz top = .ok off) :
    findCodeViewIndex b off (sz / sizeof_EFI_IMAGE_DEBUG_DIRECTORY_ENTRY) ≤
      sz / sizeof_EFI_IMAGE_DEBUG_DIRECTORY_ENTRY ∧
    (∀ j, j < findCodeViewIndex b off (sz / sizeof_EFI_IMAGE_DEBUG_DIRECTORY_ENTRY) →
      debugEntryType b off j ≠ EFI_IMAGE_DEBUG_TYPE_CODEVIEW) ∧
    (findCodeViewIndex b off (sz / sizeof_EFI_IMAGE_DEBUG_DIRECTORY_ENTRY) <
        sz / sizeof_EFI_IMAGE_DEBUG_DIRECTORY_ENTRY →
      debugEntryType b off
        (findCodeViewIndex b off (sz / sizeof_EFI_IMAGE_DEBUG_DIRECTORY_ENTRY)) =
        EFI_IMAGE_DEBUG_TYPE_CODEVIEW) ∧
    (findCodeViewIndex b off (sz / sizeof_EFI_IMAGE_DEBUG_DIRECTORY_ENTRY) =
        sz / sizeof_EFI_IMAGE_DEBUG_DIRECTORY_ENTRY →
      PeCoffGetPdbPath cfg ctx b p0 s0 = (.notFound, p0, s0)) := by
  refine ⟨?_, ?_, ?_, ?_⟩
  · have h := scanFirst_le
      (fun i => decide (debugEntryType b off i = EFI_IMAGE_DEBUG_TYPE_CODEVIEW))
      (sz / sizeof_EFI_IMAGE_DEBUG_DIRECTORY_ENTRY) 0
    unfold findCodeViewIndex
    omega
  · intro j hj
    have h := scanFirst_min
      (fun i => decide (debugEntryType b off i = EFI_IMAGE_DEBUG_TYPE_CODEVIEW))
      (sz / sizeof_EFI_IMAGE_DEBUG_DIRECTORY_ENTRY) 0 j (Nat.zero_le j) hj
    simpa using h
  · intro h
    have hle := scanFirst_hit
      (fun i => decide (debugEntryType b off i = EFI_IMAGE_DEBUG_TYPE_CODEVIEW))
      (sz / sizeof_EFI_IMAGE_DEBUG_DIRECTORY_ENTRY) 0
    unfold findCodeViewIndex at h ⊢
    simpa using hle (by omega)
  · intro h
    rw [main_stages_ok cfg ctx b p0 s0 va sz top off hen hloc hval hmap]
    simp [h]

/-- Witness for C8 at the well-formed TE image, where entry 0 is CodeView. -/
theorem pdbPath_codeview_scan_inst :
    findCodeViewIndex exBuf 80 (28 / sizeof_EFI_IMAGE_DEBUG_DIRECTORY_ENTRY) ≤
      28 / sizeof_EFI_IMAGE_DEBUG_DIRECTORY_ENTRY ∧
    (∀ j, j < findCodeViewIndex exBuf 80 (28 / sizeof_EFI_IMAGE_DEBUG_DIRECTORY_ENTRY) →
      debugEntryType exBuf 80 j ≠ EFI_IMAGE_DEBUG_TYPE_CODEVIEW) ∧
    (findCodeViewIndex exBuf 80 (28 / sizeof_EFI_IMAGE_DEBUG_DIRECTORY_ENTRY) <
        28 / sizeof_EFI_IMAGE_DEBUG_DIRECTORY_ENTRY →
      debugEntryType exBuf 80
        (findCodeViewIndex exBuf 80 (28 / sizeof_EFI_IMAGE_DEBUG_DIRECTORY_ENTRY)) =
        EFI_IMAGE_DEBUG_TYPE_CODEVIEW) ∧
    (findCodeViewIndex exBuf 80 (28 / sizeof_EFI_IMAGE_DEBUG_DIRECTORY_ENTRY) =
        28 / sizeof_EFI_IMAGE_DEBUG_DIRECTORY_ENTRY →
      PeCoffGetPdbPath exCfg exCtx exBuf 9 10 = (.notFound, 9, 10)) :=
  pdbPath_codeview_scan exCfg exCtx exBuf 9 10 80 28 108 80 rfl rfl rfl rfl

/-! ### Inversion lemmas -/

theorem locateDebugDir_error (cfg : Config) (ctx : ImageContext) (b : Buffer)
    (st : RETURN_STATUS) (h : locateDebugDir cfg ctx b = .error st) :
    st ≠ RETURN_STATUS.success := by
  simp only [locateDebugDir] at h
  repeat' split at h
  all_goals first
    | (injection h with h2; subst h2; decide)
    | injection h

theorem validateDebugDirSize_error (ctx : ImageContext) (va sz : Nat)
    (st : RETURN_STATUS) (h : validateDebugDirSize ctx va sz = .error st) :
    st ≠ RETURN_STATUS.success := by
  simp only [validateDebugDirSize] at h
  repeat' split at h
  all_goals first
    | (injection h with h2; subst h2; decide)
    | injection h

theorem mapDebugDirToFileOffset_error (cfg : Config) (ctx : ImageContext)
    (b : Buffer) (va sz top : Nat) (st : RETURN_STATUS)
    (h : mapDebugDirToFileOffset cfg ctx b va sz top = .error st) :
    st ≠ RETURN_STATUS.success := by
  simp only [mapDebugDirToFileOffset] at h
  repeat' split at h
  all_goals first
    | (injection h with h2; subst h2; decide)
    | injection h

theorem extractPdbAtOffset_success (ctx : ImageContext) (b : Buffer)
    (off szd p0 s0 p s : Nat)
    (h : extractPdbAtOffset ctx b off szd p0 s0 = (.success, p, s)) :
    ∃ hdr, codeViewHeaderSize (readU32 b off) = some hdr ∧
      p = off + hdr ∧ hdr < szd ∧ s = szd - hdr ∧
      off + szd ≤ ctx.fileSize ∧ 1 ≤ s ∧ readU8 b (p + (s - 1)) = 0 := by
  simp only [extractPdbAtOffset] at h
  split at h
  · simp at h
  · rename_i h1
    split at h
    · simp at h
    · rename_i pdbOffset hcv
      split at h
      · simp at h
      · rename_i h2
        split at h
        · simp at h
        · rename_i h3
          simp only [Prod.mk.injEq] at h
          obtain ⟨-, hp, hs⟩ := h
          simp only [BaseOverflowAddU32, decide_eq_true_eq] at h1
          push_neg at h1
          obtain ⟨hov, hfs, hal⟩ := h1
          simp only [BaseOverflowSubU32, decide_eq_true_eq] at h2
          push_neg at h2
          obtain ⟨hsub, hnz⟩ := h2
          have hszd : szd < 4294967296 := by omega
          have hw : wsub32 szd pdbOffset = szd - pdbOffset := wsub32_eq hsub hszd
          rw [wrap32_eq_of_lt hov] at hfs
          simp only [BaseOverflowSubU32] at hs h3
          rw [hw] at hs hnz
          push_neg at h3
          rw [hw] at h3
          refine ⟨pdbOffset, hcv, hp.symm, by omega, by omega, hfs, by omega, ?_⟩
          rw [← hp, ← hs]
          exact h3

theorem extractPdbFromEntry_success (cfg : Config) (ctx : ImageContext)
    (b : Buffer) (entriesOff idx p0 s0 p s : Nat)
    (h : extractPdbFromEntry cfg ctx b entriesOff idx p0 s0 = (.success, p, s)) :
    ∃ off, extractPdbAtOffset ctx b off (debugEntrySizeOfData b entriesOff idx)
      p0 s0 = (.success, p, s) := by
  simp only [extractPdbFromEntry] at h
  split at h
  · simp at h
  · split at h
    · exact ⟨_, h⟩
    · split at h
      · simp at h
      · exact ⟨_, h⟩

theorem main_success (cfg : Config) (ctx : ImageContext) (b : Buffer)
    (p0 s0 p s : Nat)
    (h : PeCoffGetPdbPath cfg ctx b p0 s0 = (.success, p, s)) :
    ∃ va sz top off,
      locateDebugDir cfg ctx b = .ok (va, sz) ∧
      validateDebugDirSize ctx va sz = .ok top ∧
      mapDebugDirToFileOffset cfg ctx b va sz top = .ok off ∧
      findCodeViewIndex b off (sz / sizeof_EFI_IMAGE_DEBUG_DIRECTORY_ENTRY) <
        sz / sizeof_EFI_IMAGE_DEBUG_DIRECTORY_ENTRY ∧
      extractPdbFromEntry cfg ctx b off
        (findCodeViewIndex b off (sz / sizeof_EFI_IMAGE_DEBUG_DIRECTORY_ENTRY))
        p0 s0 = (.success, p, s) := by
  unfold PeCoffGetPdbPath at h
  split at h
  · simp at h
  · split at h
    · rename_i st heq
      have hne := locateDebugDir_error cfg ctx b st heq
      simp only [Prod.mk.injEq] at h
      exact absurd h.1 hne
    · rename_i dir heq
      obtain ⟨va, sz⟩ := dir
      simp only [getPdbPathFromDir] at h
      split at h
      · rename_i st heq2
        have hne := validateDebugDirSize_error ctx va sz st heq2
        simp only [Prod.mk.injEq] at h
        exact absurd h.1 hne
      · rename_i top heq2
        split at h
        · rename_i st heq3
          have hne := mapDebugDirToFileOffset_error cfg ctx b va sz top st heq3
          simp only [Prod.mk.injEq] at h
          exact absurd h.1 hne
        · rename_i off heq3
          split at h
          · simp at h
          · rename_i hk
            have hub : findCodeViewIndex b off
                (sz / sizeof_EFI_IMAGE_DEBUG_DIRECTORY_ENTRY) ≤
                sz / sizeof_EFI_IMAGE_DEBUG_DIRECTORY_ENTRY := by
              have hle := scanFirst_le
                (fun i => decide (debugEntryType b off i = EFI_IMAGE_DEBUG_TYPE_CODEVIEW))
                (sz / sizeof_EFI_IMAGE_DEBUG_DIRECTORY_ENTRY) 0
              unfold findCodeViewIndex
              omega
            exact ⟨va, sz, top, off, heq, heq2, heq3, by omega, h⟩

/-- Claim C1: on any success, the returned pointer is a byte offset inside
the caller's file buffer (`[0, fileSize)` from the buffer start), the
returned length is exactly the matched CodeView entry's declared data size
minus the fixed header size selected by its signature (hence never exceeds
that difference), the length counts the terminator (it is at least 1), and
the final byte of the returned view is zero. -/
theorem pdbPath_success_view (cfg : Config) (ctx : ImageContext) (b : Buffer)
    (p0 s0 p s : Nat)
    (h : PeCoffGetPdbPath cfg ctx b p0 s0 = (.success, p, s)) :
    p < ctx.fileSize ∧ p + s ≤ ctx.fileSize ∧ 1 ≤ s ∧
    readU8 b (p + (s - 1)) = 0 ∧
    ∃ va sz top off hdr,
      locateDebugDir cfg ctx b = .ok (va, sz) ∧
      validateDebugDirSize ctx va sz = .ok top ∧
      mapDebugDirToFileOffset cfg ctx b va sz top = .ok off ∧
      findCodeViewIndex b off (sz / sizeof_EFI_IMAGE_DEBUG_DIRECTORY_ENTRY) <
        sz / sizeof_EFI_IMAGE_DEBUG_DIRECTORY_ENTRY ∧
      codeViewHeaderSize (readU32 b (p - hdr)) = some hdr ∧
      hdr ≤ debugEntrySizeOfData b off
        (findCodeViewIndex b off (sz / sizeof_EFI_IMAGE_DEBUG_DIRECTORY_ENTRY)) ∧
      s = debugEntrySizeOfData b off
        (findCodeViewIndex b off (sz / sizeof_EFI_IMAGE_DEBUG_DIRECTORY_ENTRY)) - hdr := by
  obtain ⟨va, sz, top, off, hloc, hval, hmap, hk, hext⟩ :=
    main_success cfg ctx b p0 s0 p s h
  obtain ⟨eo, hext2⟩ :=
    extractPdbFromEntry_success cfg ctx b off _ p0 s0 p s hext
  obtain ⟨hdr, hcv, hp, hlt, hs, hb, h1s, hterm⟩ :=
    extractPdbAtOffset_success ctx b eo _ p0 s0 p s hext2
  have hpe : p - hdr = eo := by omega
  refine ⟨by omega, by omega, h1s, hterm,
    va, sz, top, off, hdr, hloc, hval, hmap, hk, ?_, by omega, by omega⟩
  rw [hpe]
  exact hcv

/-- Witness for C1 at the well-formed TE image, where the call succeeds with
the view at offset 136 of length 8. -/
theorem pdbPath_success_view_inst :
    136 < exCtx.fileSize ∧ 136 + 8 ≤ exCtx.fileSize ∧ 1 ≤ 8 ∧
    readU8 exBuf (136 + (8 - 1)) = 0 ∧
    ∃ va sz top off hdr,
      locateDebugDir exCfg exCtx exBuf = .ok (va, sz) ∧
      validateDebugDirSize exCtx va sz = .ok top ∧
      mapDebugDirToFileOffset exCfg exCtx exBuf va sz top = .ok off ∧
      findCodeViewIndex exBuf off (sz / sizeof_EFI_IMAGE_DEBUG_DIRECTORY_ENTRY) <
        sz / sizeof_EFI_IMAGE_DEBUG_DIRECTORY_ENTRY ∧
      codeViewHeaderSize (readU32 exBuf (136 - hdr)) = some hdr ∧
      hdr ≤ debugEntrySizeOfData exBuf off
        (findCodeViewIndex exBuf off (sz / sizeof_EFI_IMAGE_DEBUG_DIRECTORY_ENTRY)) ∧
      8 = debugEntrySizeOfData exBuf off
        (findCodeViewIndex exBuf off (sz / sizeof_EFI_IMAGE_DEBUG_DIRECTORY_ENTRY)) - hdr :=
  pdbPath_success_view exCfg exCtx exBuf 0 0 136 8 (by decide)

theorem codeViewHeaderSize_bound (sig hdr : Nat)
    (h : codeViewHeaderSize sig = some hdr) : hdr = 16 ∨ hdr = 24 ∨ hdr = 20 := by
  simp only [codeViewHeaderSize, sizeof_NB10_ENTRY, sizeof_RSDS_ENTRY,
    sizeof_MTOC_ENTRY] at h
  repeat' split at h
  all_goals first
    | (injection h with h2; omega)
    | injection h

theorem debugEntrySizeOfData_lt (b : Buffer) (entriesOff idx : Nat) :
    debugEntrySizeOfData b entriesOff idx < 4294967296 := by
  unfold debugEntrySizeOfData
  exact readU32_lt b _

theorem extractPdbAtOffset_conditions (ctx : ImageContext) (b : Buffer)
    (off szd p0 s0 : Nat)
    (hszd : szd < 4294967296)
    (hov : (BaseOverflowAddU32 off szd).1 = false)
    (hfs : (BaseOverflowAddU32 off szd).2 ≤ ctx.fileSize)
    (hal : off % 4 = 0) :
    (extractPdbAtOffset ctx b off szd p0 s0 = (.unsupported, p0, s0) ∨
     (extractPdbAtOffset ctx b off szd p0 s0).1 = .success) ∧
    (extractPdbAtOffset ctx b off szd p0 s0 = (.unsupported, p0, s0) ↔
      (codeViewHeaderSize (readU32 b off) = none ∨
       (∃ hdr, codeViewHeaderSize (readU32 b off) = some hdr ∧ szd ≤ hdr) ∨
       (∃ hdr, codeViewHeaderSize (readU32 b off) = some hdr ∧ hdr < szd ∧
         readU8 b (off + hdr + (szd - hdr - 1)) ≠ 0))) := by
  have hcf : ¬((BaseOverflowAddU32 off szd).1 = true ∨
      ctx.fileSize < (BaseOverflowAddU32 off szd).2 ∨ off % 4 ≠ 0) := by
    push_neg
    exact ⟨by simp [hov], hfs, hal⟩
  simp only [extractPdbAtOffset]
  rw [if_neg hcf]
  split
  · rename_i hcv
    exact ⟨Or.inl rfl, by simp [hcv]⟩
  · rename_i hdr hcv
    by_cases hle : szd ≤ hdr
    · have hcond : (BaseOverflowSubU32 szd hdr).1 = true ∨
          (BaseOverflowSubU32 szd hdr).2 = 0 := by
        rcases Nat.lt_or_ge szd hdr with hl | hg
        · left; simp [BaseOverflowSubU32, hl]
        · right
          have he : hdr = szd := by omega
          subst he
          simp only [BaseOverflowSubU32]
          rw [wsub32_eq (Nat.le_refl _) hszd]
          omega
      rw [if_pos hcond]
      refine ⟨Or.inl rfl, ?_, fun _ => rfl⟩
      intro _
      exact Or.inr (Or.inl ⟨hdr, hcv, hle⟩)
    · push_neg at hle
      have hw : (BaseOverflowSubU32 szd hdr).2 = szd - hdr := by
        simp only [BaseOverflowSubU32]
        exact wsub32_eq (by omega) hszd
      have hcond : ¬((BaseOverflowSubU32 szd hdr).1 = true ∨
          (BaseOverflowSubU32 szd hdr).2 = 0) := by
        simp only [BaseOverflowSubU32, decide_eq_true_eq]
        push_neg
        refine ⟨by omega, ?_⟩
        rw [wsub32_eq (by omega) hszd]
        omega
      rw [if_neg hcond]
      by_cases ht : readU8 b (off + hdr + ((BaseOverflowSubU32 szd hdr).2 - 1)) ≠ 0
      · rw [if_pos ht]
        refine ⟨Or.inl rfl, ?_, fun _ => rfl⟩
        intro _
        refine Or.inr (Or.inr ⟨hdr, hcv, hle, ?_⟩)
        rw [hw] at ht
        exact ht
      · rw [if_neg ht]
        push_neg at ht
        refine ⟨Or.inr rfl, ?_, ?_⟩
        · intro hfalse
          simp at hfalse
        · rintro (hbad | ⟨hdr2, he2, hbad⟩ | ⟨hdr2, he2, -, hbad⟩)
          · rw [hcv] at hbad
            exact absurd hbad (by simp)
          · rw [hcv] at he2
            injection he2 with he2
            omega
          · rw [hcv] at he2
            injection he2 with he2
            subst he2
            rw [hw] at ht
            exact absurd ht hbad

theorem extractPdbFromEntry_reduce (cfg : Config) (ctx : ImageContext)
    (b : Buffer) (entriesOff idx p0 s0 : Nat)
    (hsub : cfg.imageLoaderProhibitTe = false →
      ¬ debugEntryFileOffsetField b entriesOff idx < ctx.teStrippedOffset) :
    extractPdbFromEntry cfg ctx b entriesOff idx p0 s0 =
      if debugEntrySizeOfData b entriesOff idx < 4 then (.unsupported, p0, s0)
      else extractPdbAtOffset ctx b (compensatedEntryOffset cfg ctx b entriesOff idx)
        (debugEntrySizeOfData b entriesOff idx) p0 s0 := by
  cases hc : cfg.imageLoaderProhibitTe
  · simp [extractPdbFromEntry, compensatedEntryOffset, BaseOverflowSubU32, hc, hsub hc]
  · simp [extractPdbFromEntry, compensatedEntryOffset, hc]

/-- Claim C5: for a CodeView entry whose (TE-compensated) file offset passes
the bounds and alignment checks, the extractor returns `RETURN_UNSUPPORTED`
exactly when the declared data size is below 4, or the 4-byte signature is
none of NB10/RSDS/MTOC, or the checked subtraction of the signature's fixed
header size from the data size underflows or yields zero, or the final byte
of the name region is nonzero; otherwise it succeeds. -/
theorem pdbPath_extractor_conditions (cfg : Config) (ctx : ImageContext)
    (b : Buffer) (entriesOff idx p0 s0 : Nat)
    (hsub : cfg.imageLoaderProhibitTe = false →
      ¬ debugEntryFileOffsetField b entriesOff idx < ctx.teStrippedOffset)
    (hov : (BaseOverflowAddU32 (compensatedEntryOffset cfg ctx b entriesOff idx)
        (debugEntrySizeOfData b entriesOff idx)).1 = false)
    (hfs : (BaseOverflowAddU32 (compensatedEntryOffset cfg ctx b entriesOff idx)
        (debugEntrySizeOfData b entriesOff idx)).2 ≤ ctx.fileSize)
    (hal : compensatedEntryOffset cfg ctx b entriesOff idx % 4 = 0) :
    (extractPdbFromEntry cfg ctx b entriesOff idx p0 s0 = (.unsupported, p0, s0) ∨
     (extractPdbFromEntry cfg ctx b entriesOff idx p0 s0).1 = .success) ∧
    (extractPdbFromEntry cfg ctx b entriesOff idx p0 s0 = (.unsupported, p0, s0) ↔
      (debugEntrySizeOfData b entriesOff idx < 4 ∨
       codeViewHeaderSize
         (readU32 b (compensatedEntryOffset cfg ctx b entriesOff idx)) = none ∨
       (∃ hdr, codeViewHeaderSize
           (readU32 b (compensatedEntryOffset cfg ctx b entriesOff idx)) = some hdr ∧
         debugEntrySizeOfData b entriesOff idx ≤ hdr) ∨
       (∃ hdr, codeViewHeaderSize
           (readU32 b (compensatedEntryOffset cfg ctx b entriesOff idx)) = some hdr ∧
         hdr < debugEntrySizeOfData b entriesOff idx ∧
         readU8 b (compensatedEntryOffset cfg ctx b entriesOff idx + hdr +
           (debugEntrySizeOfData b entriesOff idx - hdr - 1)) ≠ 0))) := by
  rw [extractPdbFromEntry_reduce cfg ctx b entriesOff idx p0 s0 hsub]
  by_cases h4 : debugEntrySizeOfData b entriesOff idx < 4
  · rw [if_pos h4]
    exact ⟨Or.inl rfl, by simp [h4]⟩
  · rw [if_neg h4]
    obtain ⟨hc1, hc2⟩ := extractPdbAtOffset_conditions ctx b
      (compensatedEntryOffset cfg ctx b entriesOff idx)
      (debugEntrySizeOfData b entriesOff idx) p0 s0
      (debugEntrySizeOfData_lt b entriesOff idx) hov hfs hal
    refine ⟨hc1, ?_⟩
    rw [hc2]
    constructor
    · exact fun h => Or.inr h
    · rintro (hbad | h)
      · exact absurd hbad h4
      · exact h

/-- Witness for C5 at the well-formed TE image: the hypotheses hold for its
single CodeView entry and the extractor succeeds, so the failure disjunction
is false. -/
theorem pdbPath_extractor_conditions_inst :
    (extractPdbFromEntry exCfg exCtx exBuf 80 0 11 12 = (.unsupported, 11, 12) ∨
     (extractPdbFromEntry exCfg exCtx exBuf 80 0 11 12).1 = .success) ∧
    (extractPdbFromEntry exCfg exCtx exBuf 80 0 11 12 = (.unsupported, 11, 12) ↔
      (debugEntrySizeOfData exBuf 80 0 < 4 ∨
       codeViewHeaderSize
         (readU32 exBuf (compensatedEntryOffset exCfg exCtx exBuf 80 0)) = none ∨
       (∃ hdr, codeViewHeaderSize
           (readU32 exBuf (compensatedEntryOffset exCfg exCtx exBuf 80 0)) = some hdr ∧
         debugEntrySizeOfData exBuf 80 0 ≤ hdr) ∨
       (∃ hdr, codeViewHeaderSize
           (readU32 exBuf (compensatedEntryOffset exCfg exCtx exBuf 80 0)) = some hdr ∧
         hdr < debugEntrySizeOfData exBuf 80 0 ∧
         readU8 exBuf (compensatedEntryOffset exCfg exCtx exBuf 80 0 + hdr +
           (debugEntrySizeOfData exBuf 80 0 - hdr - 1)) ≠ 0))) :=
  pdbPath_extractor_conditions exCfg exCtx exBuf 80 0 11 12
    (fun _ => by decide) (by decide) (by decide) (by decide)

theorem wsub32_wrap_zero (x : Nat) : wsub32 (wrap32 x) 0 = wrap32 x := by
  unfold wsub32 wrap32
  omega

theorem locateDebugDir_cfg_irrel (d te1 te2 : Bool) (ctx : ImageContext)
    (b : Buffer) (h : ctx.imageType ≠ PeCoffLoaderTypeTe) :
    locateDebugDir ⟨d, te1⟩ ctx b = locateDebugDir ⟨d, te2⟩ ctx b := by
  simp [locateDebugDir, h]

theorem mapDebugDirToFileOffset_stripped_zero (d : Bool) (ctx : ImageContext)
    (b : Buffer) (va sz top : Nat) (h0 : ctx.teStrippedOffset = 0) :
    mapDebugDirToFileOffset ⟨d, false⟩ ctx b va sz top =
      mapDebugDirToFileOffset ⟨d, true⟩ ctx b va sz top := by
  simp [mapDebugDirToFileOffset, h0, wsub32_wrap_zero]

theorem extractPdbFromEntry_stripped_zero (d : Bool) (ctx : ImageContext)
    (b : Buffer) (eo idx p0 s0 : Nat) (h0 : ctx.teStrippedOffset = 0) :
    extractPdbFromEntry ⟨d, false⟩ ctx b eo idx p0 s0 =
      extractPdbFromEntry ⟨d, true⟩ ctx b eo idx p0 s0 := by
  have hww : wsub32 (debugEntryFileOffsetField b eo idx) 0 =
      debugEntryFileOffsetField b eo idx := by
    apply wsub32_zero
    unfold debugEntryFileOffsetField
    exact readU32_lt b _
  simp [extractPdbFromEntry, BaseOverflowSubU32, h0, hww]

theorem getPdbPathFromDir_stripped_zero (d : Bool) (ctx : ImageContext)
    (b : Buffer) (va sz p0 s0 : Nat) (h0 : ctx.teStrippedOffset = 0) :
    getPdbPathFromDir ⟨d, false⟩ ctx b va sz p0 s0 =
      getPdbPathFromDir ⟨d, true⟩ ctx b va sz p0 s0 := by
  unfold getPdbPathFromDir
  cases hval : validateDebugDirSize ctx va sz with
  | error st => rfl
  | ok top =>
    dsimp only
    rw [mapDebugDirToFileOffset_stripped_zero d ctx b va sz top h0]
    cases hmap : mapDebugDirToFileOffset ⟨d, true⟩ ctx b va sz top with
    | error st => rfl
    | ok off =>
      dsimp only
      split
      · rfl
      · exact extractPdbFromEntry_stripped_zero d ctx b off _ p0 s0 h0

theorem peCoff_stripped_zero_equiv (d : Bool) (ctx : ImageContext) (b : Buffer)
    (p0 s0 : Nat) (hty : ctx.imageType ≠ PeCoffLoaderTypeTe)
    (h0 : ctx.teStrippedOffset = 0) :
    PeCoffGetPdbPath ⟨d, false⟩ ctx b p0 s0 =
      PeCoffGetPdbPath ⟨d, true⟩ ctx b p0 s0 := by
  unfold PeCoffGetPdbPath
  dsimp only
  rw [locateDebugDir_cfg_irrel d false true ctx b hty]
  split
  · rfl
  · cases hloc : locateDebugDir ⟨d, true⟩ ctx b with
    | error st => rfl
    | ok dir => exact getPdbPathFromDir_stripped_zero d ctx b dir.1 dir.2 p0 s0 h0

theorem mapDebugDirToFileOffset_ok_form (d : Bool) (ctx : ImageContext)
    (b : Buffer) (va sz top off : Nat)
    (h : mapDebugDirToFileOffset ⟨d, false⟩ ctx b va sz top = .ok off) :
    off = wsub32 (wrap32 (sectionPointerToRawData b ctx
        (findDebugSectionIndex ctx b va top) +
      wsub32 va (sectionVirtualAddress b ctx (findDebugSectionIndex ctx b va top))))
      ctx.teStrippedOffset := by
  simp only [mapDebugDirToFileOffset] at h
  repeat' split at h
  all_goals try exact absurd ‹false = true› (by simp)
  all_goals simp at h
  all_goals omega

theorem extractPdbFromEntry_underflow (cfg : Config) (ctx : ImageContext)
    (b : Buffer) (entriesOff idx p0 s0 : Nat)
    (hc : cfg.imageLoaderProhibitTe = false)
    (h4 : ¬ debugEntrySizeOfData b entriesOff idx < 4)
    (hu : debugEntryFileOffsetField b entriesOff idx < ctx.teStrippedOffset) :
    extractPdbFromEntry cfg ctx b entriesOff idx p0 s0 = (.unsupported, p0, s0) := by
  simp [extractPdbFromEntry, hc, h4, BaseOverflowSubU32, hu]

/-- Claim C6: whenever the configuration permits TE images, the stripped
byte count is subtracted from the directory's raw file offset and (with a
checked subtraction whose underflow yields `RETURN_UNSUPPORTED`) from the
CodeView entry's file offset; and for non-TE images with a structurally zero
stripped count the run with the compensation enabled equals the run with it
disabled. -/
theorem pdbPath_stripped_compensation :
    (∀ (d : Bool) (ctx : ImageContext) (b : Buffer) (p0 s0 : Nat),
      ctx.imageType ≠ PeCoffLoaderTypeTe → ctx.teStrippedOffset = 0 →
      PeCoffGetPdbPath ⟨d, false⟩ ctx b p0 s0 =
        PeCoffGetPdbPath ⟨d, true⟩ ctx b p0 s0) ∧
    (∀ (d : Bool) (ctx : ImageContext) (b : Buffer) (va sz top off : Nat),
      mapDebugDirToFileOffset ⟨d, false⟩ ctx b va sz top = .ok off →
      off = wsub32 (wrap32 (sectionPointerToRawData b ctx
          (findDebugSectionIndex ctx b va top) +
        wsub32 va (sectionVirtualAddress b ctx (findDebugSectionIndex ctx b va top))))
        ctx.teStrippedOffset) ∧
    (∀ (cfg : Config) (ctx : ImageContext) (b : Buffer)
        (entriesOff idx p0 s0 : Nat),
      cfg.imageLoaderProhibitTe = false →
      ¬ debugEntrySizeOfData b entriesOff idx < 4 →
      debugEntryFileOffsetField b entriesOff idx < ctx.teStrippedOffset →
      extractPdbFromEntry cfg ctx b entriesOff idx p0 s0 = (.unsupported, p0, s0)) :=
  ⟨peCoff_stripped_zero_equiv,
   mapDebugDirToFileOffset_ok_form,
   extractPdbFromEntry_underflow⟩

/-- Witness for C6: the equivalence at a PE32 image with zero stripped count,
the compensated form of the mapped offset at the well-formed TE image, and
the underflow rejection at a context with stripped count 100. -/
theorem pdbPath_stripped_compensation_inst :
    (PeCoffGetPdbPath ⟨true, false⟩ pe32Ctx zeroBuf 1 2 =
      PeCoffGetPdbPath ⟨true, true⟩ pe32Ctx zeroBuf 1 2) ∧
    (80 = wsub32 (wrap32 (sectionPointerToRawData exBuf exCtx
        (findDebugSectionIndex exCtx exBuf 80 108) +
      wsub32 80 (sectionVirtualAddress exBuf exCtx
        (findDebugSectionIndex exCtx exBuf 80 108))))
      exCtx.teStrippedOffset) ∧
    (extractPdbFromEntry exCfg underCtx underBuf 0 0 3 4 = (.unsupported, 3, 4)) :=
  ⟨pdbPath_stripped_compensation.1 true pe32Ctx zeroBuf 1 2 (by decide) rfl,
   pdbPath_stripped_compensation.2.1 true exCtx exBuf 80 28 108 80 rfl,
   pdbPath_stripped_compensation.2.2 exCfg underCtx underBuf 0 0 3 4 rfl
     (by decide) (by decide)⟩

theorem extractPdbAtOffset_out (ctx : ImageContext) (b : Buffer)
    (off szd p0 s0 : Nat) :
    extractPdbAtOffset ctx b off szd p0 s0 =
      restoreOut p0 s0 (extractPdbAtOffset ctx b off szd 0 0) := by
  unfold extractPdbAtOffset
  by_cases h1 : (BaseOverflowAddU32 off szd).1 = true ∨
      ctx.fileSize < (BaseOverflowAddU32 off szd).2 ∨ ¬ off % 4 = 0
  · simp only [if_pos h1]
    simp [restoreOut]
  · simp only [if_neg h1]
    cases hcv : codeViewHeaderSize (readU32 b off) with
    | none => simp [restoreOut]
    | some pdbOffset =>
      dsimp only
      by_cases h2 : (BaseOverflowSubU32 szd pdbOffset).1 = true ∨
          (BaseOverflowSubU32 szd pdbOffset).2 = 0
      · simp only [if_pos h2]
        simp [restoreOut]
      · simp only [if_neg h2]
        by_cases h3 : readU8 b (off + pdbOffset +
            ((BaseOverflowSubU32 szd pdbOffset).2 - 1)) = 0
        · simp only [if_neg (not_not_intro h3)]
          simp [restoreOut]
        · simp only [if_pos h3]
          simp [restoreOut]

theorem extractPdbFromEntry_out (cfg : Config) (ctx : ImageContext) (b : Buffer)
    (eo idx p0 s0 : Nat) :
    extractPdbFromEntry cfg ctx b eo idx p0 s0 =
      restoreOut p0 s0 (extractPdbFromEntry cfg ctx b eo idx 0 0) := by
  unfold extractPdbFromEntry
  split
  · simp [restoreOut]
  · split
    · exact extractPdbAtOffset_out ctx b _ _ p0 s0
    · split
      · simp [restoreOut]
      · exact extractPdbAtOffset_out ctx b _ _ p0 s0

theorem getPdbPathFromDir_out (cfg : Config) (ctx : ImageContext) (b : Buffer)
    (va sz p0 s0 : Nat) :
    getPdbPathFromDir cfg ctx b va sz p0 s0 =
      restoreOut p0 s0 (getPdbPathFromDir cfg ctx b va sz 0 0) := by
  unfold getPdbPathFromDir
  cases hval : validateDebugDirSize ctx va sz with
  | error st =>
    have hne := validateDebugDirSize_error ctx va sz st hval
    dsimp only
    simp [restoreOut, hne]
  | ok top =>
    dsimp only
    cases hmap : mapDebugDirToFileOffset cfg ctx b va sz top with
    | error st =>
      have hne := mapDebugDirToFileOffset_error cfg ctx b va sz top st hmap
      dsimp only
      simp [restoreOut, hne]
    | ok off =>
      dsimp only
      split
      · simp [restoreOut]
      · exact extractPdbFromEntry_out cfg ctx b off _ p0 s0

theorem peCoff_out (cfg : Config) (ctx : ImageContext) (b : Buffer)
    (p0 s0 : Nat) :
    PeCoffGetPdbPath cfg ctx b p0 s0 =
      restoreOut p0 s0 (PeCoffGetPdbPath cfg ctx b 0 0) := by
  unfold PeCoffGetPdbPath
  split
  · simp [restoreOut]
  · cases hloc : locateDebugDir cfg ctx b with
    | error st =>
      have hne := locateDebugDir_error cfg ctx b st hloc
      dsimp only
      simp [restoreOut, hne]
    | ok dir =>
      dsimp only
      exact getPdbPathFromDir_out cfg ctx b dir.1 dir.2 p0 s0

theorem peCoff_success_bounds (cfg : Config) (ctx : ImageContext) (b : Buffer)
    (p0 s0 p s : Nat)
    (h : PeCoffGetPdbPath cfg ctx b p0 s0 = (.success, p, s)) :
    1 ≤ s ∧ p + s ≤ ctx.fileSize := by
  obtain ⟨va, sz, top, off, hloc, hval, hmap, hk, hext⟩ :=
    main_success cfg ctx b p0 s0 p s h
  obtain ⟨eo, hext2⟩ :=
    extractPdbFromEntry_success cfg ctx b off _ p0 s0 p s hext
  obtain ⟨hdr, hcv, hp, hlt, hs2, hb2, h1s, hterm⟩ :=
    extractPdbAtOffset_success ctx b eo _ p0 s0 p s hext2
  exact ⟨h1s, by omega⟩

/-- Claim C10: on any non-success return, the caller's output locations keep
their prior contents; on success they are overwritten with values that do not
depend on their prior contents (they are written exactly on the success
path). -/
theorem pdbPath_outputs_once (cfg : Config) (ctx : ImageContext) (b : Buffer)
    (p0 s0 : Nat) :
    ((PeCoffGetPdbPath cfg ctx b p0 s0).1 ≠ RETURN_STATUS.success →
      (PeCoffGetPdbPath cfg ctx b p0 s0).2 = (p0, s0)) ∧
    ((PeCoffGetPdbPath cfg ctx b p0 s0).1 = RETURN_STATUS.success →
      ∀ q0 t0, PeCoffGetPdbPath cfg ctx b q0 t0 = PeCoffGetPdbPath cfg ctx b p0 s0) := by
  have hr := peCoff_out cfg ctx b p0 s0
  constructor
  · intro hns
    rw [hr] at hns ⊢
    by_cases hs : (PeCoffGetPdbPath cfg ctx b 0 0).1 = RETURN_STATUS.success
    · exact absurd (by simp [restoreOut, hs]) hns
    · simp [restoreOut, hs]
  · intro hs q0 t0
    rw [hr] at hs
    by_cases hs0 : (PeCoffGetPdbPath cfg ctx b 0 0).1 = RETURN_STATUS.success
    · rw [peCoff_out cfg ctx b q0 t0, hr]
      simp [restoreOut, hs0]
    · simp only [restoreOut, if_neg hs0] at hs
      exact absurd hs hs0

/-- Witness for C10: with debug support off the outputs survive unchanged,
and the successful run's result does not depend on the outputs' prior
contents. -/
theorem pdbPath_outputs_once_inst :
    (PeCoffGetPdbPath ⟨false, false⟩ exCtx exBuf 7 9).2 = (7, 9) ∧
    PeCoffGetPdbPath exCfg exCtx exBuf 21 22 = PeCoffGetPdbPath exCfg exCtx exBuf 0 0 :=
  ⟨(pdbPath_outputs_once ⟨false, false⟩ exCtx exBuf 7 9).1 (by decide),
   (pdbPath_outputs_once exCfg exCtx exBuf 0 0).2 (by decide) 21 22⟩

/-- Claim C9: the call leaves the file buffer and the image context exactly
as they were (the source's only stores are the two output locations), and on
success the written view aliases the caller's buffer: it starts inside
`[0, fileSize)` and ends within `fileSize`. -/
theorem pdbPath_no_mutation (cfg : Config) (st : MemState) :
    (runPeCoffGetPdbPath cfg st).2.buffer = st.buffer ∧
    (runPeCoffGetPdbPath cfg st).2.ctx = st.ctx ∧
    ((runPeCoffGetPdbPath cfg st).1 = RETURN_STATUS.success →
      (runPeCoffGetPdbPath cfg st).2.outPath < st.ctx.fileSize ∧
      (runPeCoffGetPdbPath cfg st).2.outPath +
        (runPeCoffGetPdbPath cfg st).2.outSize ≤ st.ctx.fileSize) := by
  refine ⟨rfl, rfl, ?_⟩
  intro hs
  unfold runPeCoffGetPdbPath at hs ⊢
  dsimp only at hs ⊢
  have hE : PeCoffGetPdbPath cfg st.ctx st.buffer st.outPath st.outSize =
      (.success,
        (PeCoffGetPdbPath cfg st.ctx st.buffer st.outPath st.outSize).2.1,
        (PeCoffGetPdbPath cfg st.ctx st.buffer st.outPath st.outSize).2.2) := by
    rw [← hs]
  have hv := peCoff_success_bounds cfg st.ctx st.buffer st.outPath st.outSize _ _ hE
  exact ⟨by omega, by omega⟩

/-- Witness for C9 at the successful run on the well-formed TE image. -/
theorem pdbPath_no_mutation_inst :
    (runPeCoffGetPdbPath exCfg ⟨exCtx, exBuf, 0, 0⟩).2.buffer = exBuf ∧
    (runPeCoffGetPdbPath exCfg ⟨exCtx, exBuf, 0, 0⟩).2.ctx = exCtx ∧
    ((runPeCoffGetPdbPath exCfg ⟨exCtx, exBuf, 0, 0⟩).2.outPath < exCtx.fileSize ∧
     (runPeCoffGetPdbPath exCfg ⟨exCtx, exBuf, 0, 0⟩).2.outPath +
       (runPeCoffGetPdbPath exCfg ⟨exCtx, exBuf, 0, 0⟩).2.outSize ≤ exCtx.fileSize) :=
  ⟨(pdbPath_no_mutation exCfg ⟨exCtx, exBuf, 0, 0⟩).1,
   (pdbPath_no_mutation exCfg ⟨exCtx, exBuf, 0, 0⟩).2.1,
   (pdbPath_no_mutation exCfg ⟨exCtx, exBuf, 0, 0⟩).2.2 (by decide)⟩
